import Mathlib

/-!
Shallow embedding of `src/antichonk.py` (the interactive disk-space review
tool) for checking the natural-language specification against the code.

Modelling conventions:
* Paths are `String`s; path arithmetic (`os.path.dirname`, prefix tests,
  glob component checks) is implemented by structural recursion on the
  underlying character lists so that everything evaluates by `decide`/`rfl`.
* The filesystem is a finite list of entries (regular files and
  directories); a directory also exists implicitly when some entry lies
  beneath it.  `os.path.exists` is queried only on catalog file paths by
  the program, so it is modelled as membership of the exact path.
* Python's class-level mutable attributes (`StateMachine.directories_to_ignore`,
  `File.files`) are process-global state, modelled by the explicit record
  `PState` threaded through every operation, together with the remaining
  stdin tokens and the trace of files rendered by `prompt()`.
* Python object identity (used by `list.index` in `StateMachine.advance`)
  is modelled by the `id` field of `File`; `File.__init__` assigns a fresh
  id (the registry length).
* The mutually recursive methods `StateMachine.transition` / `advance`
  (which also re-enter `transition` from `print_help` and on invalid
  input) are embedded as a fuel-indexed interpreter.  Each successful
  result also reports the maximum nesting depth of `transition`/`advance`
  frames reached, which models the Python call-stack growth (Python
  performs no tail-call elimination, so every `return self.transition()` /
  `self.advance()` keeps its caller's frame alive).
* Uncaught Python exceptions (`EOFError` from `input()` at end of stdin,
  `FileNotFoundError`/`IsADirectoryError` from `os.remove`/`shutil.rmtree`,
  `IndexError` from `files[0]`, `ValueError` from `list.index`) are
  modelled as `Res.err` results carrying the state at raise time.
* Display-only computation (human-readable sizes, tree glyphs, colors) is
  excluded from the spec's core and not modelled; a render is recorded as
  the id of the file being prompted.
-/

/-- Errors corresponding to the Python exceptions the program can raise. -/
inductive PyErr where
  | eofError
  | valueError
  | indexError
  | fileNotFoundError (path : String)
  | isADirectoryError (path : String)
deriving DecidableEq

/-- One filesystem entry: a regular file or a directory, with the metadata
`main` reads (`os.path.getsize`, age in days derived from `st_ctime`). -/
structure FSEntry where
  path : String
  isDir : Bool
  size : Nat
  age_days : Int
deriving DecidableEq

/-- Record constructed by `File.__init__` (src/antichonk.py:193-200).
`id` models Python object identity (each constructed object is distinct);
the display-only fields (`size_human_readable`, `age_human_readable`) are
omitted. -/
structure File where
  path : String
  directory : String
  size_in_bytes : Nat
  age_in_days : Int
  id : Nat
deriving DecidableEq

/-- Process-wide mutable state threaded through the embedding:
the two class-level attributes (`StateMachine.directories_to_ignore`,
`File.files`), the filesystem, the pending stdin tokens, and the trace of
file ids rendered by `prompt()` (in order). -/
structure PState where
  directories_to_ignore : List String
  file_files : List File
  fs : List FSEntry
  stdin : List String
  rendered : List Nat
deriving DecidableEq

/-- Splits a character list at every slash (components of a path). -/
def splitSlash : List Char → List (List Char)
  | [] => [[]]
  | c :: cs =>
    let r := splitSlash cs
    if c == '/' then [] :: r
    else
      match r with
      | [] => [[c]]
      | h :: t => (c :: h) :: t

/-- Joins components with slashes (inverse of `splitSlash` on normal paths). -/
def joinSlash : List (List Char) → List Char
  | [] => []
  | [c] => c
  | c :: cs => c ++ '/' :: joinSlash cs

/-- Model of `os.path.dirname` for normalized absolute paths: drop the last
slash-separated component. -/
def os_path_dirname (p : String) : String :=
  ⟨joinSlash ((splitSlash p.data).dropLast)⟩

/-- True when `p` lies strictly beneath directory `d`
(that is, `d ++ "/"` is a prefix of `p`). -/
def path_is_under (d p : String) : Bool :=
  List.isPrefixOf (d.data ++ ['/']) p.data

/-- Model of `os.path.exists` as used by the program: the catalog path of a
scanned regular file exists iff the filesystem still has that entry. -/
def os_path_exists (fs : List FSEntry) (p : String) : Bool :=
  fs.any (fun e => e.path == p)

/-- Model of `os.remove`: raises `FileNotFoundError` when the path is gone
and `IsADirectoryError` on a directory; otherwise removes the file. -/
def os_remove (fs : List FSEntry) (p : String) : Except PyErr (List FSEntry) :=
  match fs.find? (fun e => e.path == p) with
  | none => .error (.fileNotFoundError p)
  | some e =>
    if e.isDir then .error (.isADirectoryError p)
    else .ok (fs.filter (fun e2 => e2.path != p))

/-- Model of `shutil.rmtree d`: removes `d` and everything beneath it.
In this model a directory exists iff it is an entry or some entry lies
beneath it; `rmtree` on a missing directory raises `FileNotFoundError`. -/
def shutil_rmtree (fs : List FSEntry) (d : String) : Except PyErr (List FSEntry) :=
  if fs.any (fun e => e.path == d || path_is_under d e.path) then
    .ok (fs.filter (fun e => !(e.path == d || path_is_under d e.path)))
  else .error (.fileNotFoundError d)

/-- Model of `File.determine_directory` (src/antichonk.py:202-203). -/
def File.determine_directory (path : String) : String :=
  os_path_dirname path

/-- Model of `File.__init__` (src/antichonk.py:193-200): builds the record,
derives `directory`, and appends `self` to the class-level list
`File.files` (modelled by `PState.file_files`).  The fresh `id` models the
identity of the newly allocated Python object. -/
def File.init (path : String) (size_in_bytes : Nat) (age_in_days : Int)
    (s : PState) : File × PState :=
  let f : File :=
    { path := path
      directory := File.determine_directory path
      size_in_bytes := size_in_bytes
      age_in_days := age_in_days
      id := s.file_files.length }
  (f, { s with file_files := s.file_files ++ [f] })

/-- Model of the classmethod `File.files_by_size` (src/antichonk.py:185-187):
`sorted(klass.files, key=lambda x: x.size_in_bytes)`.  Python's `sorted` is
a stable ascending sort, which is exactly `List.insertionSort` with the
non-strict key comparison.  The class registry is passed explicitly. -/
def File.files_by_size (files : List File) : List File :=
  List.insertionSort (fun a b => a.size_in_bytes ≤ b.size_in_bytes) files

/-- Model of the classmethod `File.files_by_age` (src/antichonk.py:189-191):
`sorted(klass.files, key=lambda x: x.age_in_days, reverse=True)`.  Python's
`sorted` with `reverse=True` is the stable descending sort, which is
`List.insertionSort` with the flipped non-strict key comparison. -/
def File.files_by_age (files : List File) : List File :=
  List.insertionSort (fun a b => b.age_in_days ≤ a.age_in_days) files

/-- Result of running (part of) a review session:
`ok cur s depth` is normal completion with final `current_file`, final
process state, and the maximum nesting depth of `transition`/`advance`
frames that was reached; `err` is an uncaught Python exception carrying
the state at raise time; `timeout` means the fuel ran out. -/
inductive Res where
  | ok (cur : File) (s : PState) (depth : Nat)
  | err (e : PyErr) (s : PState)
  | timeout
deriving DecidableEq

/-- Combines the call depths of the sub-calls a `transition` frame made:
its own frame plus the deepest of the (up to three) calls beneath it. -/
def depthBump (d1 d2 : Nat) : Res → Res
  | .ok c s d => .ok c s (1 + max d1 (max d2 d))
  | r => r

/-- Model of Python's `list.index` on the catalog with object-identity
equality: position of the first element that is the same object as `cur`
(`none` models the `ValueError`). -/
def list_index : List File → File → Option Nat
  | [], _ => none
  | f :: t, cur => if f.id == cur.id then some 0 else (list_index t cur).map (· + 1)

mutual

/-- Model of `StateMachine.transition` (src/antichonk.py:124-137).
Faithful to the source, including the absence of `return` after the two
stale-record `self.advance()` calls: after such an `advance()` returns,
control falls through towards `prompt()`.  `prompt()`
(src/antichonk.py:175-179) renders the current file (recorded in
`rendered`) and then reads one stdin token (`EOFError` when stdin is
exhausted).  The token dispatch models the `self.actions` dict: `d` is
`delete_file`, `D` is `delete_file_directory`, `s` is `skip`, `S` is
`skip_directory`, `?` is `print_help` (prints the legend, then
`return self.transition()`), and any other token hits the `else` branch
`return self.transition()`. -/
def transition : Nat → List File → File → PState → Res
  | 0, _, _, _ => .timeout
  | fuel + 1, files, cur, s =>
    match (if os_path_exists s.fs cur.path then Res.ok cur s 0
           else advance fuel files cur s) with
    | .err e s1 => .err e s1
    | .timeout => .timeout
    | .ok cur1 s1 d1 =>
      match (if s1.directories_to_ignore.contains cur1.directory then
               advance fuel files cur1 s1
             else Res.ok cur1 s1 0) with
      | .err e s2 => .err e s2
      | .timeout => .timeout
      | .ok cur2 s2 d2 =>
        let s3 : PState := { s2 with rendered := s2.rendered ++ [cur2.id] }
        match s3.stdin with
        | [] => .err .eofError s3
        | c :: rest =>
          let s4 : PState := { s3 with stdin := rest }
          if c = "d" then
            match os_remove s4.fs cur2.path with
            | .error e => .err e s4
            | .ok fs2 => depthBump d1 d2 (advance fuel files cur2 { s4 with fs := fs2 })
          else if c = "D" then
            match shutil_rmtree s4.fs cur2.directory with
            | .error e => .err e s4
            | .ok fs2 => depthBump d1 d2 (advance fuel files cur2 { s4 with fs := fs2 })
          else if c = "s" then
            depthBump d1 d2 (advance fuel files cur2 s4)
          else if c = "S" then
            depthBump d1 d2 (advance fuel files cur2
              { s4 with directories_to_ignore := s4.directories_to_ignore ++ [cur2.directory] })
          else if c = "?" then
            depthBump d1 d2 (transition fuel files cur2 s4)
          else
            depthBump d1 d2 (transition fuel files cur2 s4)

/-- Model of `StateMachine.advance` (src/antichonk.py:154-162):
`self.files.index(self.current_file)` (identity comparison, hence the id
lookup; `ValueError` if absent), then either return (cursor past the end,
`current_file` left unchanged) or set `current_file` to the next record
and `return self.transition()`.  A successful result's depth counts this
frame plus whatever ran beneath it. -/
def advance : Nat → List File → File → PState → Res
  | 0, _, _, _ => .timeout
  | fuel + 1, files, cur, s =>
    match list_index files cur with
    | none => .err .valueError s
    | some i =>
      if i + 1 ≥ files.length then .ok cur s 1
      else
        match files[i + 1]? with
        | none => .err .indexError s
        | some nf =>
          match transition fuel files nf s with
          | .ok c s2 d => .ok c s2 (1 + d)
          | r => r

end

/-- Review-session object built by `StateMachine.__init__`. -/
structure StateMachine where
  files : List File
  current_file : File
deriving DecidableEq

/-- Model of `StateMachine.__init__` (src/antichonk.py:112-121):
`self.current_file = files[0]` raises `IndexError` on an empty catalog;
otherwise the cursor starts at index 0. -/
def StateMachine.init (files : List File) : Except PyErr StateMachine :=
  match files with
  | [] => .error .indexError
  | f :: _ => .ok { files := files, current_file := f }

/-- Matches the glob pattern `root ++ "/**/*"` with `recursive=True`
(src/antichonk.py:246): the path lies beneath `root` and every component
below `root` is nonempty and does not start with a dot (Python's `*` and
`**` do not match hidden names). -/
def glob_match (root p : String) : Bool :=
  List.isPrefixOf (root.data ++ ['/']) p.data &&
  ((splitSlash (p.data.drop (root.data.length + 1))).all
    (fun comp => !comp.isEmpty && comp.head? != some '.'))

/-- One iteration of the scan loop of `main` (src/antichonk.py:247-254):
`if os.path.isdir(path): continue`, otherwise read size and age and
construct a `File` (which registers itself in the class-level list). -/
def scan_step (acc : PState) (e : FSEntry) : PState :=
  if e.isDir then acc else (File.init e.path e.size e.age_days acc).2

/-- Model of the scan loop of `main` (src/antichonk.py:246-254): for every
glob match under the root (in filesystem order), run `scan_step`.  The
glob result list is computed once from the initial filesystem, as the
Python list comprehension does. -/
def main_scan (root : String) (s : PState) : PState :=
  (s.fs.filter (fun e => glob_match root e.path)).foldl scan_step s


/-! Concrete fixtures used by witnesses and counterexamples. -/

/-- Fixture: a scanned record for the file `/r/a`. -/
def fA : File :=
  { path := "/r/a", directory := "/r", size_in_bytes := 10, age_in_days := 3, id := 0 }

/-- Fixture: a scanned record for the file `/r/b` (same directory as `fA`). -/
def fB : File :=
  { path := "/r/b", directory := "/r", size_in_bytes := 5, age_in_days := 1, id := 1 }

/-- Fixture: a scanned record for the file `/q/c` (a different directory). -/
def fC : File :=
  { path := "/q/c", directory := "/q", size_in_bytes := 7, age_in_days := 2, id := 2 }

/-- Fixture filesystem in which `/r/a` exists. -/
def fsA : List FSEntry := [{ path := "/r/a", isDir := false, size := 10, age_days := 3 }]

/-- Fixture filesystem in which `/r/a` is gone but its sibling `/r/b`
still exists (so the directory `/r` itself still exists and renders). -/
def fsB : List FSEntry := [{ path := "/r/b", isDir := false, size := 5, age_days := 1 }]

/-- Fixture filesystem for a two-record catalog: `/r/b` and `/q/c`. -/
def fsBC : List FSEntry :=
  [{ path := "/r/b", isDir := false, size := 5, age_days := 1 },
   { path := "/q/c", isDir := false, size := 7, age_days := 2 }]

/-- Builds a process state with empty class-level attributes, the given
filesystem and the given pending stdin tokens. -/
def mkState (fs : List FSEntry) (stdin : List String) : PState :=
  { directories_to_ignore := [], file_files := [], fs := fs, stdin := stdin, rendered := [] }

/-! Stability of `List.insertionSort` (the embedding of Python's stable
`sorted`): filtering by any one key value commutes with sorting. -/

/-- Inserting an element that fails the filter does not change the filter. -/
theorem filter_orderedInsert_of_neg {α : Type} (r : α → α → Prop) [DecidableRel r]
    (p : α → Bool) (x : α) (hx : p x = false) (l : List α) :
    (List.orderedInsert r x l).filter p = l.filter p := by
  induction l with
  | nil => simp [hx]
  | cons y ys ih =>
    by_cases h : r x y
    · simp [List.orderedInsert, h, hx]
    · simp only [List.orderedInsert, if_neg h, List.filter_cons]
      rw [ih]

/-- Inserting an element that passes the filter, when every element it is
placed after fails the filter, prepends it to the filtered list. -/
theorem filter_orderedInsert_of_pos {α : Type} (r : α → α → Prop) [DecidableRel r]
    (p : α → Bool) (x : α) (hx : p x = true)
    (hcut : ∀ y, ¬r x y → p y = false) (l : List α) :
    (List.orderedInsert r x l).filter p = x :: l.filter p := by
  induction l with
  | nil => simp [hx]
  | cons y ys ih =>
    by_cases h : r x y
    · simp [List.orderedInsert, h, hx]
    · have hy : p y = false := hcut y h
      simp only [List.orderedInsert, if_neg h, List.filter_cons, hy,
        Bool.false_eq_true, if_false, ih]

/-- Stability of insertion sort: for a filter `p` that is only satisfied on
a single key value of the sort comparison (any two `p`-elements are
`r`-comparable both ways), sorting does not change the filtered sublist. -/
theorem filter_insertionSort {α : Type} (r : α → α → Prop) [DecidableRel r]
    (p : α → Bool) (hcomp : ∀ x y, p x = true → ¬r x y → p y = false)
    (l : List α) :
    (List.insertionSort r l).filter p = l.filter p := by
  induction l with
  | nil => rfl
  | cons x xs ih =>
    by_cases hx : p x = true
    · rw [List.insertionSort, filter_orderedInsert_of_pos r p x hx (fun y => hcomp x y hx), ih,
        List.filter_cons_of_pos hx]
    · have hx' : p x = false := by
        cases hpx : p x
        · rfl
        · exact absurd hpx hx
      rw [List.insertionSort, filter_orderedInsert_of_neg r p x hx', ih,
        List.filter_cons_of_neg (by simp [hx'])]

/-- C2: for every catalog (list of records), `files_by_size` is
non-decreasing in `size_in_bytes`, `files_by_age` is non-increasing in
`age_in_days`, both return exactly the input records (a permutation), and
both are stable: for every key value, the sublist of records with that key
is unchanged, i.e. equal-key records keep their relative scan order. -/
theorem c2_orderings_sorted_and_stable (files : List File) :
    List.Sorted (fun a b => a.size_in_bytes ≤ b.size_in_bytes) (File.files_by_size files)
    ∧ List.Sorted (fun a b => b.age_in_days ≤ a.age_in_days) (File.files_by_age files)
    ∧ (File.files_by_size files).Perm files
    ∧ (File.files_by_age files).Perm files
    ∧ (∀ k : Nat, (File.files_by_size files).filter (fun f => f.size_in_bytes == k)
        = files.filter (fun f => f.size_in_bytes == k))
    ∧ (∀ k : Int, (File.files_by_age files).filter (fun f => f.age_in_days == k)
        = files.filter (fun f => f.age_in_days == k)) := by
  refine ⟨?_, ?_, ?_, ?_, ?_, ?_⟩
  · haveI h1 : IsTotal File (fun a b => a.size_in_bytes ≤ b.size_in_bytes) :=
      ⟨fun a b => Nat.le_total _ _⟩
    haveI h2 : IsTrans File (fun a b => a.size_in_bytes ≤ b.size_in_bytes) :=
      ⟨fun _ _ _ hab hbc => Nat.le_trans hab hbc⟩
    exact List.sorted_insertionSort _ files
  · haveI h1 : IsTotal File (fun a b => b.age_in_days ≤ a.age_in_days) :=
      ⟨fun a b => (Int.le_total _ _).symm.imp id id⟩
    haveI h2 : IsTrans File (fun a b => b.age_in_days ≤ a.age_in_days) :=
      ⟨fun _ _ _ hab hbc => Int.le_trans hbc hab⟩
    exact List.sorted_insertionSort _ files
  · exact List.perm_insertionSort _ files
  · exact List.perm_insertionSort _ files
  · intro k
    refine filter_insertionSort _ _ ?_ files
    intro x y hx h
    rw [beq_iff_eq] at hx
    rw [beq_eq_false_iff_ne]
    have h' : ¬x.size_in_bytes ≤ y.size_in_bytes := h
    omega
  · intro k
    refine filter_insertionSort _ _ ?_ files
    intro x y hx h
    rw [beq_iff_eq] at hx
    rw [beq_eq_false_iff_ne]
    have h' : ¬y.age_in_days ≤ x.age_in_days := h
    omega

/-- C4: constructing a review session over an empty catalog fails (the
`files[0]` lookup in `StateMachine.__init__` raises, which is the spec's
`EmptyCatalogError` failure mode), and over any non-empty catalog it
succeeds with the cursor on the record at index 0. -/
theorem c4_session_construction :
    StateMachine.init [] = .error .indexError
    ∧ ∀ (f : File) (t : List File),
        StateMachine.init (f :: t) = .ok { files := f :: t, current_file := f } :=
  ⟨rfl, fun _ _ => rfl⟩

/-! Scan lemmas (claims C5, C8, C10). -/

/-- Each scan iteration extends the registry's path sequence by the
entry's path exactly when the entry is a regular file. -/
theorem scan_step_paths (l : List FSEntry) :
    ∀ s : PState, ((l.foldl scan_step s).file_files).map File.path
      = s.file_files.map File.path ++ (l.filter (fun e => !e.isDir)).map FSEntry.path := by
  induction l with
  | nil => intro s; simp
  | cons e es ih =>
    intro s
    cases h : e.isDir with
    | true =>
      simp [scan_step, h]
      exact ih s
    | false =>
      simp [scan_step, h, ih, File.init, List.append_assoc]

/-- The scan fold only ever appends to the class-level registry. -/
theorem scan_fold_registry_extends (l : List FSEntry) :
    ∀ s : PState, ∃ new, (l.foldl scan_step s).file_files = s.file_files ++ new := by
  induction l with
  | nil => intro s; exact ⟨[], by simp⟩
  | cons e es ih =>
    intro s
    obtain ⟨t, ht⟩ := ih (scan_step s e)
    cases h : e.isDir with
    | true =>
      refine ⟨t, ?_⟩
      rw [List.foldl_cons, ht]
      simp [scan_step, h]
    | false =>
      refine ⟨(File.init e.path e.size e.age_days s).1 :: t, ?_⟩
      rw [List.foldl_cons, ht]
      simp [scan_step, h, File.init, List.append_assoc]

/-- C8 (amended): the scan emits, in filesystem order, exactly one record
per regular non-hidden file beneath the root (a file all of whose path
components below the root are nonempty and do not start with a dot), and
no directory is ever emitted; dot entries and files beneath dot
directories are omitted, contrary to the claim's "including entries whose
names begin with a dot". -/
theorem c8_scan_emits_exactly_visible_files (root : String) (s : PState) :
    ((main_scan root s).file_files).map File.path
      = s.file_files.map File.path
        ++ (s.fs.filter (fun e => !e.isDir && glob_match root e.path)).map FSEntry.path := by
  unfold main_scan
  rw [scan_step_paths]
  congr 1
  rw [List.filter_filter]

/-- C8 counterexample: the dot-file `/r/.h` is a regular file beneath the
root `/r`, yet the scan emits no record for it (the registry stays
empty), because the glob pattern does not match hidden names. -/
theorem c8_hidden_file_omitted_cex :
    path_is_under "/r" "/r/.h" = true
    ∧ ({ path := "/r/.h", isDir := false, size := 4, age_days := 1 } : FSEntry).isDir = false
    ∧ (main_scan "/r" (mkState
        [{ path := "/r/.h", isDir := false, size := 4, age_days := 1 }] [])).file_files = [] := by
  decide

/-- C5 (amended): the program never validates the root: when no filesystem
entry matches the glob pattern under `root` (in particular whenever the
root does not exist), the scan silently completes without any error and
leaves the catalog registry unchanged; with an empty registry the failure
surfaces only later, as the `IndexError` (the spec's empty-catalog failure
mode) when the session is constructed over the sorted registry. -/
theorem c5_missing_root_silently_empty (root : String) (s : PState)
    (h1 : s.fs.all (fun e => !glob_match root e.path) = true)
    (h2 : s.file_files = []) :
    main_scan root s = s
    ∧ StateMachine.init (File.files_by_age (main_scan root s).file_files)
        = .error .indexError
    ∧ StateMachine.init (File.files_by_size (main_scan root s).file_files)
        = .error .indexError := by
  have hf : s.fs.filter (fun e => glob_match root e.path) = [] := by
    rw [List.filter_eq_nil_iff]
    intro a ha
    have h3 := (List.all_eq_true.mp h1) a ha
    simp only [Bool.not_eq_true'] at h3
    simp [h3]
  have hm : main_scan root s = s := by
    unfold main_scan
    rw [hf]
    rfl
  refine ⟨hm, ?_, ?_⟩ <;> rw [hm, h2] <;> rfl

/-- Witness for the C5 amended theorem at a concrete input: the
filesystem holds only `/r/a` and the scanned root `/nope` does not
exist. -/
theorem c5_missing_root_silently_empty_witness :
    main_scan "/nope" (mkState fsA []) = mkState fsA []
    ∧ StateMachine.init (File.files_by_age (main_scan "/nope" (mkState fsA [])).file_files)
        = .error .indexError
    ∧ StateMachine.init (File.files_by_size (main_scan "/nope" (mkState fsA [])).file_files)
        = .error .indexError :=
  c5_missing_root_silently_empty "/nope" (mkState fsA []) (by decide) (by decide)

/-- C5 counterexample: the root `/nope` does not exist in the fixture
filesystem, yet the scan completes normally — it has no failure path at
all — and silently produces an empty catalog instead of failing with the
spec's `ScanError`. -/
theorem c5_no_scan_error_cex :
    os_path_exists fsA "/nope" = false
    ∧ main_scan "/nope" (mkState fsA []) = mkState fsA []
    ∧ (main_scan "/nope" (mkState fsA [])).file_files = [] := by decide

/-- C10: every constructed `File` appends itself to the class-level
registry `File.files`; any scan extends (never resets) that registry, so
a second catalog built in the same process still contains the first
scan's records; and the two orderings rank whatever registry they are
given in its entirety (their output is a permutation of all records ever
constructed, not of one scan). -/
theorem c10_class_level_registry :
    (∀ (p : String) (sz : Nat) (ag : Int) (s : PState),
        ((File.init p sz ag s).2).file_files = s.file_files ++ [(File.init p sz ag s).1])
    ∧ (∀ (root : String) (s : PState), ∃ new,
        (main_scan root s).file_files = s.file_files ++ new)
    ∧ (∀ l : List File, (File.files_by_size l).Perm l ∧ (File.files_by_age l).Perm l) :=
  ⟨fun _ _ _ _ => rfl,
   fun _ s => scan_fold_registry_extends _ s,
   fun l => ⟨List.perm_insertionSort _ l, List.perm_insertionSort _ l⟩⟩

/-! Interpreter lemmas (claims C1, C3, C6, C7, C9). -/

/-- Running `advance` on a one-record catalog whose current record is that
record: the cursor is already at the last index, so `advance` returns at
once without touching the state. -/
theorem advance_singleton (fuel : Nat) (cur : File) (s : PState) :
    advance (fuel + 1) [cur] cur s = .ok cur s 1 := by
  simp [advance, list_index]

/-- When a path does not exist, the `find?` performed by `os.remove`
cannot locate it. -/
theorem find?_eq_none_of_gone {fs : List FSEntry} {p : String}
    (h : os_path_exists fs p = false) :
    fs.find? (fun e => e.path == p) = none := by
  unfold os_path_exists at h
  rw [List.find?_eq_none]
  intro x hx hpx
  have hany : fs.any (fun e => e.path == p) = true := List.any_eq_true.mpr ⟨x, hx, hpx⟩
  rw [h] at hany
  exact Bool.false_ne_true hany

/-- A help token or an unrecognized token makes `transition` re-enter
itself on the same current record: the token is consumed, the record is
rendered once more, and nothing else changes. -/
theorem transition_reprompt (fuel : Nat) (files : List File) (cur : File)
    (s : PState) (c : String) (rest : List String)
    (hex : os_path_exists s.fs cur.path = true)
    (hig : s.directories_to_ignore.contains cur.directory = false)
    (hin : s.stdin = c :: rest)
    (hd : c ≠ "d") (hD : c ≠ "D") (hs : c ≠ "s") (hS : c ≠ "S") :
    transition (fuel + 1) files cur s
      = depthBump 0 0 (transition fuel files cur
          { s with stdin := rest, rendered := s.rendered ++ [cur.id] }) := by
  have hig' : cur.directory ∉ s.directories_to_ignore := by
    simpa using hig
  simp [transition, hex, hig', hin, hd, hD, hs, hS]

/-- C6: for every input token outside d, D, s, S — the help token as well
as any unrecognized token — the session re-prompts the identical current
record: `transition` re-enters itself with the same catalog and the same
current record, and the only state changes are the consumed stdin token
and the render of that same record.  In particular the cursor does not
advance and neither the filesystem nor `directories_to_ignore` is
mutated by processing that token. -/
theorem c6_help_and_invalid_reprompt (fuel : Nat) (files : List File) (cur : File)
    (s : PState) (c : String) (rest : List String)
    (hex : os_path_exists s.fs cur.path = true)
    (hig : s.directories_to_ignore.contains cur.directory = false)
    (hin : s.stdin = c :: rest)
    (hd : c ≠ "d") (hD : c ≠ "D") (hs : c ≠ "s") (hS : c ≠ "S") :
    transition (fuel + 1) files cur s
      = depthBump 0 0 (transition fuel files cur
          { s with stdin := rest, rendered := s.rendered ++ [cur.id] }) :=
  transition_reprompt fuel files cur s c rest hex hig hin hd hD hs hS

/-- Witness for C6 at concrete inputs: the help token and the token x,
each on a live one-record catalog. -/
theorem c6_help_and_invalid_reprompt_witness :
    (transition (2 + 1) [fA] fA (mkState fsA ["?", "s"])
      = depthBump 0 0 (transition 2 [fA] fA
          { (mkState fsA ["?", "s"]) with
            stdin := ["s"],
            rendered := (mkState fsA ["?", "s"]).rendered ++ [fA.id] }))
    ∧ (transition (2 + 1) [fA] fA (mkState fsA ["x", "s"])
      = depthBump 0 0 (transition 2 [fA] fA
          { (mkState fsA ["x", "s"]) with
            stdin := ["s"],
            rendered := (mkState fsA ["x", "s"]).rendered ++ [fA.id] })) :=
  ⟨c6_help_and_invalid_reprompt 2 [fA] fA (mkState fsA ["?", "s"]) "?" ["s"]
      (by decide) (by decide) rfl (by decide) (by decide) (by decide) (by decide),
   c6_help_and_invalid_reprompt 2 [fA] fA (mkState fsA ["x", "s"]) "x" ["s"]
      (by decide) (by decide) rfl (by decide) (by decide) (by decide) (by decide)⟩

/-- C1 (evaluation of the code at the failing input): the catalog holds
only the stale record `fA` — its path `/r/a` no longer exists, though its
directory `/r` still does.  The claim (and the code's own comment) says
the session advances past it without prompting, but the missing `return`
after `self.advance()` in `StateMachine.transition` lets control fall
through to `prompt()`: the run renders the stale record
(`rendered = [fA.id]`) and consumes a stdin token for it. -/
theorem c1_stale_record_prompted :
    os_path_exists fsB fA.path = false
    ∧ transition 3 [fA] fA (mkState fsB ["s"])
        = .ok fA { directories_to_ignore := [], file_files := [], fs := fsB,
                   stdin := [], rendered := [fA.id] } 2 := by
  decide

/-- C3 counterexample: at the (reachable) prompt for a record whose path
is already gone, pressing d makes `os.remove` raise `FileNotFoundError`;
nothing catches it, so the whole run ends in an uncaught exception — the
session is terminated by a single deletion failure instead of reporting
it and advancing past the record. -/
theorem c3_deletion_failure_uncaught_cex :
    transition 3 [fA] fA (mkState fsB ["d"])
      = .err (.fileNotFoundError "/r/a")
          { directories_to_ignore := [], file_files := [], fs := fsB,
            stdin := [], rendered := [fA.id] } := by
  decide

/-- C3 (amended): deletion failures are not caught anywhere: whenever the
prompted record's path is gone and the next token is d, the
`FileNotFoundError` raised by `os.remove` propagates out of the session —
the run ends in `err`, the cursor does not advance past the record, and
no per-record error is reported. -/
theorem c3_deletion_failure_aborts_session (fuel : Nat) (s : PState) (cur : File)
    (rest : List String)
    (hgone : os_path_exists s.fs cur.path = false)
    (hin : s.stdin = "d" :: rest) :
    transition (fuel + 1 + 1) [cur] cur s
      = .err (.fileNotFoundError cur.path)
          { s with stdin := rest, rendered := s.rendered ++ [cur.id] } := by
  have hrem : os_remove s.fs cur.path = .error (.fileNotFoundError cur.path) := by
    unfold os_remove
    rw [find?_eq_none_of_gone hgone]
  cases hig : s.directories_to_ignore.contains cur.directory with
  | true =>
    have hig' : cur.directory ∈ s.directories_to_ignore := by simpa using hig
    simp [transition, hgone, hig', advance_singleton, hin, hrem]
  | false =>
    have hig' : cur.directory ∉ s.directories_to_ignore := by simpa using hig
    simp [transition, hgone, hig', advance_singleton, hin, hrem]

/-- Witness for the C3 amended theorem at a concrete input. -/
theorem c3_deletion_failure_aborts_session_witness :
    transition (1 + 1 + 1) [fA] fA (mkState fsB ["d"])
      = .err (.fileNotFoundError fA.path)
          { (mkState fsB ["d"]) with
            stdin := [],
            rendered := (mkState fsB ["d"]).rendered ++ [fA.id] } :=
  c3_deletion_failure_aborts_session 1 (mkState fsB ["d"]) fA [] (by decide) rfl

/-- C7 counterexample: the claim says the session's control flow is an
iterative loop whose call stack does not grow with the number of
re-prompts.  On the same live one-record catalog, a run with a single
prompt reaches `transition`/`advance` frame depth 2, while the same run
preceded by three invalid tokens (three re-prompts) reaches depth 5: each
re-prompt pushes one more recursive `transition` frame. -/
theorem c7_stack_growth_cex :
    transition 2 [fA] fA (mkState fsA ["s"])
      = .ok fA { directories_to_ignore := [], file_files := [], fs := fsA,
                 stdin := [], rendered := [fA.id] } 2
    ∧ transition 5 [fA] fA (mkState fsA ["x", "x", "x", "s"])
      = .ok fA { directories_to_ignore := [], file_files := [], fs := fsA,
                 stdin := [], rendered := [fA.id, fA.id, fA.id, fA.id] } 5 := by
  decide

/-- C7 (amended): the prompt/advance control flow is recursive, not an
iterative loop: on a live one-record catalog, a session fed k invalid
tokens and then s is re-prompted k times and reaches `transition`/`advance`
frame depth exactly k + 2, consuming exactly k + 2 nested calls of fuel —
the Python call stack grows linearly with the number of re-prompts. -/
theorem c7_call_depth_grows_linearly (k : Nat) (ps : List Nat) :
    transition (k + 2) [fA] fA
      { directories_to_ignore := [], file_files := [], fs := fsA,
        stdin := List.replicate k "x" ++ ["s"], rendered := ps }
      = .ok fA
          { directories_to_ignore := [], file_files := [], fs := fsA,
            stdin := [], rendered := ps ++ List.replicate (k + 1) fA.id }
          (k + 2) := by
  induction k generalizing ps with
  | zero => rfl
  | succ k ih =>
    rw [show k + 1 + 2 = (k + 2) + 1 from rfl]
    rw [transition_reprompt (k + 2) [fA] fA
      { directories_to_ignore := [], file_files := [], fs := fsA,
        stdin := List.replicate (k + 1) "x" ++ ["s"], rendered := ps }
      "x" (List.replicate k "x" ++ ["s"])
      rfl rfl rfl (by decide) (by decide) (by decide) (by decide)]
    rw [ih (ps ++ [fA.id])]
    simp only [depthBump]
    congr 1
    · simp [List.append_assoc, List.replicate_succ]
    · omega

/-- Appending-extension of lists is transitive. -/
theorem appendExt_trans {α : Type} {a b c : List α}
    (h1 : ∃ t, b = a ++ t) (h2 : ∃ t, c = b ++ t) : ∃ t, c = a ++ t := by
  obtain ⟨t1, e1⟩ := h1
  obtain ⟨t2, e2⟩ := h2
  exact ⟨t1 ++ t2, by rw [e2, e1, List.append_assoc]⟩

/-- The payload of a successful result is unchanged by `depthBump`. -/
theorem depthBump_eq_ok {d1 d2 : Nat} {r : Res} {c : File} {s : PState} {d : Nat}
    (h : depthBump d1 d2 r = .ok c s d) : ∃ d0, r = .ok c s d0 := by
  cases r with
  | ok c0 s0 dd =>
    simp only [depthBump, Res.ok.injEq] at h
    exact ⟨dd, by rw [h.1, h.2.1]⟩
  | err e s0 => simp [depthBump] at h
  | timeout => simp [depthBump] at h

/-- Monotonicity of the class-level ignore list along any successful run
of `transition` or `advance`: the final list extends the initial one.
The only write to the list is the append performed by `skip_directory`. -/
theorem ignore_mono_aux (fuel : Nat) :
    (∀ files cur s cur2 s2 d, transition fuel files cur s = .ok cur2 s2 d →
      ∃ t, s2.directories_to_ignore = s.directories_to_ignore ++ t)
    ∧ (∀ files cur s cur2 s2 d, advance fuel files cur s = .ok cur2 s2 d →
      ∃ t, s2.directories_to_ignore = s.directories_to_ignore ++ t) := by
  induction fuel with
  | zero =>
    constructor <;> intro files cur s cur2 s2 d h <;> simp [transition, advance] at h
  | succ n ih =>
    obtain ⟨ihT, ihA⟩ := ih
    constructor
    · intro files cur s cur2 s2 d h
      simp only [transition] at h
      split at h
      · exact Res.noConfusion h
      · exact Res.noConfusion h
      · rename_i cur1 s1 d1 heq1
        have e1 : ∃ t, s1.directories_to_ignore = s.directories_to_ignore ++ t := by
          by_cases h1 : os_path_exists s.fs cur.path = true
          · rw [if_pos h1] at heq1
            obtain ⟨-, h2, -⟩ := Res.ok.inj heq1
            exact ⟨[], by rw [← h2, List.append_nil]⟩
          · rw [if_neg h1] at heq1
            exact ihA _ _ _ _ _ _ heq1
        split at h
        · exact Res.noConfusion h
        · exact Res.noConfusion h
        · rename_i curp sp dp heq2
          have e2 : ∃ t, sp.directories_to_ignore = s1.directories_to_ignore ++ t := by
            by_cases h2 : s1.directories_to_ignore.contains cur1.directory = true
            · rw [if_pos h2] at heq2
              exact ihA _ _ _ _ _ _ heq2
            · rw [if_neg h2] at heq2
              obtain ⟨-, hq, -⟩ := Res.ok.inj heq2
              exact ⟨[], by rw [← hq, List.append_nil]⟩
          have e12 := appendExt_trans e1 e2
          split at h
          · exact Res.noConfusion h
          · rename_i c rest heq3
            split at h
            · split at h
              · exact Res.noConfusion h
              · obtain ⟨d0, hadv⟩ := depthBump_eq_ok h
                have e3 := ihA _ _ _ _ _ _ hadv
                exact appendExt_trans e12 e3
            · split at h
              · split at h
                · exact Res.noConfusion h
                · obtain ⟨d0, hadv⟩ := depthBump_eq_ok h
                  have e3 := ihA _ _ _ _ _ _ hadv
                  exact appendExt_trans e12 e3
              · split at h
                · obtain ⟨d0, hadv⟩ := depthBump_eq_ok h
                  have e3 := ihA _ _ _ _ _ _ hadv
                  exact appendExt_trans e12 e3
                · split at h
                  · obtain ⟨d0, hadv⟩ := depthBump_eq_ok h
                    have mid : ∃ t, sp.directories_to_ignore ++ [curp.directory]
                        = sp.directories_to_ignore ++ t := ⟨[curp.directory], rfl⟩
                    have e3 := ihA _ _ _ _ _ _ hadv
                    exact appendExt_trans e12 (appendExt_trans mid e3)
                  · split at h
                    · obtain ⟨d0, htr⟩ := depthBump_eq_ok h
                      have e3 := ihT _ _ _ _ _ _ htr
                      exact appendExt_trans e12 e3
                    · obtain ⟨d0, htr⟩ := depthBump_eq_ok h
                      have e3 := ihT _ _ _ _ _ _ htr
                      exact appendExt_trans e12 e3
    · intro files cur s cur2 s2 d h
      simp only [advance] at h
      split at h
      · exact Res.noConfusion h
      · rename_i i heq
        split at h
        · obtain ⟨-, h2, -⟩ := Res.ok.inj h
          exact ⟨[], by rw [← h2, List.append_nil]⟩
        · split at h
          · exact Res.noConfusion h
          · rename_i nf heq2
            split at h
            · rename_i c0 s0 d0 htr
              obtain ⟨-, h2, -⟩ := Res.ok.inj h
              have e0 := ihT _ _ _ _ _ _ htr
              rw [h2] at e0
              exact e0
            · rename_i hne
              exact absurd h (hne cur2 s2 d)

/-- C9 (amended): during any (successful) run of a session the class-level
`directories_to_ignore` list only grows — the final list is the initial
list with entries appended, and nothing is ever removed.  However, the
list is *class-level* state shared by every `StateMachine` instance in
the process (the sharing itself is exhibited by the accompanying
counterexample): a session constructed after another observes the earlier
session's ignored directories, so a fresh session does not start with an
empty set. -/
theorem c9_ignore_append_only (fuel : Nat) (files : List File) (cur cur2 : File)
    (s s2 : PState) (d : Nat)
    (h : transition fuel files cur s = .ok cur2 s2 d) :
    ∃ t, s2.directories_to_ignore = s.directories_to_ignore ++ t :=
  (ignore_mono_aux fuel).1 files cur s cur2 s2 d h

/-- Witness for the C9 amended theorem at a concrete input: the run of a
one-record session on the token S. -/
theorem c9_ignore_append_only_witness :
    ∃ t, ({ directories_to_ignore := ["/r"], file_files := [], fs := fsA,
            stdin := [], rendered := [fA.id] } : PState).directories_to_ignore
      = (mkState fsA ["S"]).directories_to_ignore ++ t :=
  c9_ignore_append_only 3 [fA] fA fA (mkState fsA ["S"])
    { directories_to_ignore := ["/r"], file_files := [], fs := fsA,
      stdin := [], rendered := [fA.id] } 2 (by decide)

/-- C9 counterexample: `directories_to_ignore` is a class attribute, not
instance state.  Session 1 (catalog `[fA]`) presses S, which leaves the
process-level ignore list at `["/r"]`.  Session 2 is then constructed
afresh over the catalog `[fB, fC]`, with both files present on disk.
Reading the same class attribute, session 2 never renders `fB` (id 1) —
it is auto-skipped because session 1 ignored the directory `/r` — and its
render trace is `[fC.id, fC.id]`; the identical run with an empty ignore
list renders `fB` first (`[fB.id, fC.id]`).  So two sessions in one
process do observe each other's ignored directories, and a fresh session
does not start with an empty set. -/
theorem c9_sessions_share_ignore_cex :
    transition 3 [fA] fA (mkState fsA ["S"])
      = .ok fA { directories_to_ignore := ["/r"], file_files := [], fs := fsA,
                 stdin := [], rendered := [fA.id] } 2
    ∧ StateMachine.init [fB, fC] = .ok { files := [fB, fC], current_file := fB }
    ∧ transition 6 [fB, fC] fB
        { directories_to_ignore := ["/r"], file_files := [], fs := fsBC,
          stdin := ["s"], rendered := [] }
        = .err .eofError
            { directories_to_ignore := ["/r"], file_files := [], fs := fsBC,
              stdin := [], rendered := [fC.id, fC.id] }
    ∧ transition 6 [fB, fC] fB
        { directories_to_ignore := [], file_files := [], fs := fsBC,
          stdin := ["s"], rendered := [] }
        = .err .eofError
            { directories_to_ignore := [], file_files := [], fs := fsBC,
              stdin := [], rendered := [fB.id, fC.id] } :=
  ⟨by decide, rfl, by decide, by decide⟩
